import Mathlib

/-!
# Verification of the peek-poke binary encoding protocol

This development embeds the encode/decode contract exercised by the
repository `peek-poke-benchs` (its tests in `tests/round_trip.rs` and its
benchmark fixture in `benches/versus_bincode.rs`).  The codec engine itself
(the `peek_poke` crate: `max_size`, `poke_into`, `peek_from`) is not part of
the repository's sources, so its operations are modelled from the spec's
component design (sections 4.1-4.3): bytes are written little-endian, product
types concatenate field encodings in declaration order, `Option` carries a
one-byte tag, and enums carry a discriminant followed by the selected
variant's fields.  One point where the spec's words are overridden by
in-tree evidence: the enum discriminant width.  The spec says four bytes,
but the benchmark's literal decode fixture (51 bytes) only parses with a
one-byte discriminant, so the modelled codec writes the discriminant as a
single byte; a second definition following the spec's four-byte wording is
kept for comparison.

Pointers are modelled by lists of bytes: an encoder returns the bytes it
writes (the advance of the returned end pointer is the list's length), and a
decoder returns the decoded value together with the bytes it did not consume
(so the bytes read are the input length minus the remainder's length).
Fallible decoding returns `Except PeekError`, following the spec's error
taxonomy in section 7.
-/

/-- A byte, the unit of the wire format. -/
abbrev Byte := Fin 256

/-- Build a byte list from plain numerals (each taken mod 256); used to
write wire-format literals such as the benchmark fixture. -/
def bytesOfNats (l : List Nat) : List Byte :=
  l.map fun n => (⟨n % 256, by omega⟩ : Byte)

/-- Modelled from the spec: the error taxonomy of section 7 for the decode
operation (`BufferTooSmall` concerns the encode side's caller contract and
never arises during decoding, so it is not a decode result). -/
inductive PeekError where
  | unexpectedEnd
  | invalidDiscriminant
  | invalidOptionTag
deriving DecidableEq, Repr

/-- Modelled from the spec: the codec contract of sections 4.1-4.3 for one
supported type.  `max_size` is the static upper bound (a constant: no value
instance is needed), `poke_into` is the write operation (returning the bytes
written; the end position is the start plus their length), and `peek_from`
is the read operation (returning the reconstructed value and the bytes left
unconsumed). -/
structure Codec (α : Type) where
  max_size : Nat
  poke_into : α → List Byte
  peek_from : List Byte → Except PeekError (α × List Byte)

namespace Codec

/-- Round-trip: decoding the encoding of `a`, with any bytes following it,
yields `a` and consumes exactly the encoded bytes. -/
def RoundTrips (c : Codec α) : Prop :=
  ∀ (a : α) (rest : List Byte), c.peek_from (c.poke_into a ++ rest) = .ok (a, rest)

/-- Bound respected: the bytes actually written never exceed the static
maximum size. -/
def Bounded (c : Codec α) : Prop :=
  ∀ a : α, (c.poke_into a).length ≤ c.max_size

/-- Symmetric consumption: decoding the exact encoding of `a` succeeds with
an empty remainder, so the bytes read equal the bytes written. -/
def ConsumesAll (c : Codec α) : Prop :=
  ∀ a : α, c.peek_from (c.poke_into a) = .ok (a, [])

theorem RoundTrips.consumesAll {c : Codec α} (h : c.RoundTrips) : c.ConsumesAll := by
  intro a
  have := h a []
  simpa using this

end Codec

/-- Little-endian byte encoding of a natural number in `w` bytes (the spec's
fixed byte order for primitives). -/
def pokeNat : Nat → Nat → List Byte
  | 0, _ => []
  | w + 1, n => (⟨n % 256, by omega⟩ : Byte) :: pokeNat w (n / 256)

/-- Little-endian decoding of a `w`-byte unsigned value; fails with
`unexpectedEnd` when fewer than `w` bytes remain. -/
def peekNat : Nat → List Byte → Except PeekError (Nat × List Byte)
  | 0, l => .ok (0, l)
  | _ + 1, [] => .error .unexpectedEnd
  | w + 1, b :: l => (peekNat w l).map fun p => (b.val + 256 * p.1, p.2)

theorem pokeNat_length (w n : Nat) : (pokeNat w n).length = w := by
  induction w generalizing n with
  | zero => rfl
  | succ w ih => simp [pokeNat, ih]

theorem peekNat_lt (w : Nat) (l : List Byte) (m : Nat) (r : List Byte)
    (h : peekNat w l = .ok (m, r)) : m < 2 ^ (8 * w) := by
  induction w generalizing l m r with
  | zero =>
    simp only [peekNat, Except.ok.injEq, Prod.mk.injEq] at h
    simp [← h.1]
  | succ w ih =>
    match l with
    | [] => simp [peekNat] at h
    | b :: l =>
      have h2 : (2 : Nat) ^ (8 * (w + 1)) = 2 ^ (8 * w) * 256 := by
        rw [Nat.mul_succ, pow_add]
        norm_num
      simp only [peekNat] at h
      match hrec : peekNat w l with
      | .error e => rw [hrec] at h; simp [Except.map] at h
      | .ok (m0, r0) =>
        rw [hrec] at h
        simp only [Except.map, Except.ok.injEq, Prod.mk.injEq] at h
        have hm0 := ih l m0 r0 hrec
        have hb := b.isLt
        omega

theorem peekNat_pokeNat (w : Nat) (n : Nat) (hn : n < 2 ^ (8 * w)) (rest : List Byte) :
    peekNat w (pokeNat w n ++ rest) = .ok (n, rest) := by
  induction w generalizing n rest with
  | zero =>
    have h0 : n = 0 := by
      have : (2 : Nat) ^ (8 * 0) = 1 := by norm_num
      omega
    subst h0
    rfl
  | succ w ih =>
    have h2 : (2 : Nat) ^ (8 * (w + 1)) = 2 ^ (8 * w) * 256 := by
      rw [Nat.mul_succ, pow_add]
      norm_num
    have hdiv : n / 256 < 2 ^ (8 * w) := by
      rw [Nat.div_lt_iff_lt_mul (by omega)]
      omega
    simp only [pokeNat, List.cons_append, peekNat, List.append_eq,
      ih (n / 256) hdiv rest, Except.map]
    have : n % 256 + 256 * (n / 256) = n := by omega
    rw [this]

/-- Decode a `w`-byte unsigned value as a `Fin`, using the range bound
guaranteed by `peekNat_lt`. -/
def peekPrim (w : Nat) (l : List Byte) : Except PeekError (Fin (2 ^ (8 * w)) × List Byte) :=
  match h : peekNat w l with
  | .error e => .error e
  | .ok (m, r) => .ok (⟨m, peekNat_lt w l m r h⟩, r)

theorem peekPrim_pokeNat (w : Nat) (n : Nat) (hn : n < 2 ^ (8 * w)) (rest : List Byte) :
    peekPrim w (pokeNat w n ++ rest) = .ok (⟨n, hn⟩, rest) := by
  unfold peekPrim
  split
  · rename_i e he
    rw [peekNat_pokeNat w n hn rest] at he
    cases he
  · rename_i m r h
    rw [peekNat_pokeNat w n hn rest] at h
    simp only [Except.ok.injEq, Prod.mk.injEq] at h
    obtain ⟨h1, h2⟩ := h
    subst h1
    subst h2
    rfl

/-- Modelled from the spec: the primitive codec for a `w`-byte unsigned
fixed-width integer (also the bit-pattern codec for floating point values,
which the protocol copies bit-for-bit), little-endian. -/
def primC (w : Nat) : Codec (Fin (2 ^ (8 * w))) :=
  { max_size := w
    poke_into := fun x => pokeNat w x.val
    peek_from := peekPrim w }

theorem primC_roundTrips (w : Nat) : (primC w).RoundTrips := by
  rintro ⟨n, hn⟩ rest
  exact peekPrim_pokeNat w n hn rest

theorem primC_bounded (w : Nat) : (primC w).Bounded := by
  intro a
  simp [primC, pokeNat_length]

/-- A signed `w`-byte machine integer: an integer in the two's-complement
range of width `8 * w` bits. -/
def SInt (w : Nat) :=
  { i : Int // -((2 : Int) ^ (8 * w - 1)) ≤ i ∧ i < (2 : Int) ^ (8 * w - 1) }

instance (w : Nat) : DecidableEq (SInt w) :=
  fun a b => decidable_of_iff (a.val = b.val) Subtype.ext_iff.symm

/-- Two's-complement bit pattern of a signed integer in `w` bytes: a
non-negative value is its own pattern, a negative value is shifted up by
`2 ^ (8 * w)`.  On every value of the signed range this agrees with
reduction modulo `2 ^ (8 * w)`, i.e. with reinterpreting the integer's
bits unsigned. -/
def sintToNat (w : Nat) (i : Int) : Nat :=
  if 0 ≤ i then i.toNat else (i + ((2 ^ (8 * w) : Nat) : Int)).toNat

theorem sintToNat_lt (w : Nat) (hw : 1 ≤ w) (i : Int)
    (hlb : -((2 : Int) ^ (8 * w - 1)) ≤ i) (hub : i < (2 : Int) ^ (8 * w - 1)) :
    sintToNat w i < 2 ^ (8 * w) := by
  have hfull : (2 : Nat) ^ (8 * w) = 2 ^ (8 * w - 1) * 2 := by
    rw [← pow_succ]
    congr 1
    omega
  have hc : ((2 ^ (8 * w - 1) : Nat) : Int) = (2 : Int) ^ (8 * w - 1) := by
    push_cast
    ring
  have hHpos : 0 < (2 : Nat) ^ (8 * w - 1) := Nat.pos_pow_of_pos _ (by norm_num)
  unfold sintToNat
  split
  · omega
  · omega

/-- Reinterpret an unsigned `w`-byte value as a two's-complement signed
integer. -/
def natToSInt (w : Nat) (n : Fin (2 ^ (8 * w))) : SInt w :=
  if h : (n : Nat) < 2 ^ (8 * w - 1) then
    ⟨(n : Int), by
      constructor
      · have : (0 : Int) ≤ (n : Int) := Int.natCast_nonneg _
        have hp : (0 : Int) ≤ (2 : Int) ^ (8 * w - 1) := by positivity
        omega
      · exact_mod_cast h⟩
  else
    ⟨(n : Int) - ((2 ^ (8 * w) : Nat) : Int), by
      have hfull : (2 : Nat) ^ (8 * w) ≤ 2 ^ (8 * w - 1) * 2 := by
        rw [← pow_succ]
        exact Nat.pow_le_pow_right (by norm_num) (by omega)
      have hlt := n.isLt
      have hge := Nat.le_of_not_lt h
      have hc : ((2 ^ (8 * w - 1) : Nat) : Int) = (2 : Int) ^ (8 * w - 1) := by
        push_cast
        ring
      constructor
      · rw [← hc]
        have : (2 ^ (8 * w) : Nat) ≤ 2 ^ (8 * w - 1) + (n : Nat) := by omega
        have := (Int.ofNat_le).mpr this
        push_cast at this ⊢
        omega
      · rw [← hc]
        have : ((n : Nat) : Int) < ((2 ^ (8 * w) : Nat) : Int) := by exact_mod_cast hlt
        have hpos : (0 : Int) ≤ ((2 ^ (8 * w - 1) : Nat) : Int) := Int.natCast_nonneg _
        omega⟩

/-- Modelled from the spec: the primitive codec for a `w`-byte signed
fixed-width integer, little-endian two's complement. -/
def signedC (w : Nat) : Codec (SInt w) :=
  { max_size := w
    poke_into := fun i => pokeNat w (sintToNat w i.val)
    peek_from := fun l => (peekPrim w l).map fun p => (natToSInt w p.1, p.2) }

theorem natToSInt_sintToNat (w : Nat) (hw : 1 ≤ w) (i : Int)
    (hlb : -((2 : Int) ^ (8 * w - 1)) ≤ i) (hub : i < (2 : Int) ^ (8 * w - 1))
    (h : sintToNat w i < 2 ^ (8 * w)) :
    natToSInt w ⟨sintToNat w i, h⟩ = ⟨i, hlb, hub⟩ := by
  have hfull : (2 : Nat) ^ (8 * w) = 2 ^ (8 * w - 1) * 2 := by
    rw [← pow_succ]
    congr 1
    omega
  have hc : ((2 ^ (8 * w - 1) : Nat) : Int) = (2 : Int) ^ (8 * w - 1) := by
    push_cast
    ring
  have hHpos : 0 < (2 : Nat) ^ (8 * w - 1) := Nat.pos_pow_of_pos _ (by norm_num)
  apply Subtype.ext
  rw [natToSInt]
  split
  · rename_i hlt
    have hlt2 : sintToNat w i < 2 ^ (8 * w - 1) := hlt
    show ((sintToNat w i : Nat) : Int) = i
    unfold sintToNat at hlt2 ⊢
    split at hlt2
    · rename_i h0
      rw [if_pos h0]
      omega
    · rename_i h0
      rw [if_neg h0]
      omega
  · rename_i hge
    have hge2 : ¬ sintToNat w i < 2 ^ (8 * w - 1) := hge
    show ((sintToNat w i : Nat) : Int) - ((2 ^ (8 * w) : Nat) : Int) = i
    unfold sintToNat at hge2 ⊢
    split at hge2
    · rename_i h0
      rw [if_pos h0]
      omega
    · rename_i h0
      rw [if_neg h0]
      omega

theorem signedC_roundTrips (w : Nat) (hw : 1 ≤ w) : (signedC w).RoundTrips := by
  rintro ⟨i, hlb, hub⟩ rest
  have hbound : sintToNat w i < 2 ^ (8 * w) := sintToNat_lt w hw i hlb hub
  show (peekPrim w (pokeNat w (sintToNat w i) ++ rest)).map
    (fun p => (natToSInt w p.1, p.2)) = Except.ok (⟨i, hlb, hub⟩, rest)
  rw [peekPrim_pokeNat w (sintToNat w i) hbound rest]
  show Except.ok (natToSInt w ⟨sintToNat w i, hbound⟩, rest) = _
  rw [natToSInt_sintToNat w hw i hlb hub]

theorem signedC_bounded (w : Nat) : (signedC w).Bounded := by
  intro a
  simp [signedC, pokeNat_length]

/-- Modelled from the spec: the codec for the unit type and for zero-sized
marker fields (such as `PhantomData`): zero bytes written, zero consumed. -/
def unitC : Codec Unit :=
  { max_size := 0
    poke_into := fun _ => []
    peek_from := fun l => .ok ((), l) }

theorem unitC_roundTrips : unitC.RoundTrips := by
  rintro ⟨⟩ rest
  rfl

theorem unitC_bounded : unitC.Bounded := by
  rintro ⟨⟩
  simp [unitC]

/-- Modelled from the spec: the codec for `bool`, one byte (`1` for true,
`0` for false on write; any non-zero byte reads back as true). -/
def boolC : Codec Bool :=
  { max_size := 1
    poke_into := fun b => [if b then (1 : Byte) else (0 : Byte)]
    peek_from := fun l =>
      match l with
      | [] => .error .unexpectedEnd
      | b :: r => .ok (b.val != 0, r) }

theorem boolC_roundTrips : boolC.RoundTrips := by
  rintro (_ | _) rest <;> rfl

theorem boolC_bounded : boolC.Bounded := by
  intro a
  simp [boolC]

/-- Modelled from the spec: product composition (tuples and consecutive
struct fields): field encodings concatenated in declaration order, read
back in the same order threading the cursor. -/
def prodC (ca : Codec α) (cb : Codec β) : Codec (α × β) :=
  { max_size := ca.max_size + cb.max_size
    poke_into := fun p => ca.poke_into p.1 ++ cb.poke_into p.2
    peek_from := fun l =>
      match ca.peek_from l with
      | .error e => .error e
      | .ok (a, r) =>
        match cb.peek_from r with
        | .error e => .error e
        | .ok (b, r2) => .ok ((a, b), r2) }

theorem prodC_roundTrips {ca : Codec α} {cb : Codec β}
    (ha : ca.RoundTrips) (hb : cb.RoundTrips) : (prodC ca cb).RoundTrips := by
  rintro ⟨a, b⟩ rest
  show (match ca.peek_from ((ca.poke_into a ++ cb.poke_into b) ++ rest) with
    | Except.error e => (Except.error e : Except PeekError ((α × β) × List Byte))
    | Except.ok (x, r) =>
      match cb.peek_from r with
      | Except.error e => Except.error e
      | Except.ok (y, r2) => Except.ok ((x, y), r2)) = Except.ok ((a, b), rest)
  rw [List.append_assoc, ha a (cb.poke_into b ++ rest)]
  show (match cb.peek_from (cb.poke_into b ++ rest) with
    | Except.error e => (Except.error e : Except PeekError ((α × β) × List Byte))
    | Except.ok (y, r2) => Except.ok ((a, y), r2)) = Except.ok ((a, b), rest)
  rw [hb b rest]

theorem prodC_bounded {ca : Codec α} {cb : Codec β}
    (ha : ca.Bounded) (hb : cb.Bounded) : (prodC ca cb).Bounded := by
  rintro ⟨a, b⟩
  show (ca.poke_into a ++ cb.poke_into b).length ≤ ca.max_size + cb.max_size
  rw [List.length_append]
  exact Nat.add_le_add (ha a) (hb b)

/-- Modelled from the spec: the codec for `Option`: tag byte `0` for
absent; tag byte `1` followed by the payload's encoding for present; any
other tag byte on read is `InvalidOptionTag`. -/
def optionC (c : Codec α) : Codec (Option α) :=
  { max_size := 1 + c.max_size
    poke_into := fun o =>
      match o with
      | none => [(⟨0, by omega⟩ : Byte)]
      | some a => (⟨1, by omega⟩ : Byte) :: c.poke_into a
    peek_from := fun l =>
      match l with
      | [] => .error .unexpectedEnd
      | t :: r =>
        match t.val with
        | 0 => .ok (none, r)
        | 1 =>
          match c.peek_from r with
          | .error e => .error e
          | .ok (a, r2) => .ok (some a, r2)
        | _ + 2 => .error .invalidOptionTag }

theorem optionC_roundTrips {c : Codec α} (h : c.RoundTrips) : (optionC c).RoundTrips := by
  rintro (_ | a) rest
  · rfl
  · show (match c.peek_from (c.poke_into a ++ rest) with
      | Except.error e => (Except.error e : Except PeekError (Option α × List Byte))
      | Except.ok (x, r2) => Except.ok (some x, r2)) = Except.ok (some a, rest)
    rw [h a rest]

theorem optionC_bounded {c : Codec α} (h : c.Bounded) : (optionC c).Bounded := by
  rintro (_ | a)
  · show ([(⟨0, by omega⟩ : Byte)]).length ≤ 1 + c.max_size
    simp
  · show ((⟨1, by omega⟩ : Byte) :: c.poke_into a).length ≤ 1 + c.max_size
    simp only [List.length_cons]
    have := h a
    omega

/-- Repackage a codec along a change of value representation: used to give a
struct the codec of its ordered field tuple (the spec's field-by-field
concatenation pattern).  `f` rebuilds the struct from the tuple and `g`
lists a struct's fields in declaration order. -/
def Codec.rmap (f : α → β) (g : β → α) (c : Codec α) : Codec β :=
  { max_size := c.max_size
    poke_into := fun b => c.poke_into (g b)
    peek_from := fun l => (c.peek_from l).map fun p => (f p.1, p.2) }

theorem rmap_roundTrips {c : Codec α} {f : α → β} {g : β → α}
    (h : c.RoundTrips) (hfg : ∀ b, f (g b) = b) : (Codec.rmap f g c).RoundTrips := by
  intro b rest
  show (c.peek_from (c.poke_into (g b) ++ rest)).map _ = _
  rw [h (g b) rest]
  show Except.ok (f (g b), rest) = _
  rw [hfg b]

theorem rmap_bounded {c : Codec α} {f : α → β} {g : β → α}
    (h : c.Bounded) : (Codec.rmap f g c).Bounded := fun b => h (g b)

/-! ## Concrete primitive codecs, named after the Rust types they embed.
`usize`/`isize` are eight bytes wide, as witnessed by the test vectors
(three `isize` values encode to 24 bytes) and the benchmark fixture.
`f32`/`f64` values are carried as their IEEE-754 bit patterns, which is
exactly what the protocol copies. -/

abbrev U8 := Fin (2 ^ (8 * 1))
abbrev U16 := Fin (2 ^ (8 * 2))
abbrev U32 := Fin (2 ^ (8 * 4))
abbrev U64 := Fin (2 ^ (8 * 8))
abbrev Usize := Fin (2 ^ (8 * 8))
abbrev F32 := Fin (2 ^ (8 * 4))
abbrev F64 := Fin (2 ^ (8 * 8))
abbrev I8 := SInt 1
abbrev I16 := SInt 2
abbrev I32 := SInt 4
abbrev I64 := SInt 8
abbrev Isize := SInt 8

abbrev u8C : Codec U8 := primC 1
abbrev u16C : Codec U16 := primC 2
abbrev u32C : Codec U32 := primC 4
abbrev u64C : Codec U64 := primC 8
abbrev usizeC : Codec Usize := primC 8
abbrev f32C : Codec F32 := primC 4
abbrev f64C : Codec F64 := primC 8
abbrev i8C : Codec I8 := signedC 1
abbrev i16C : Codec I16 := signedC 2
abbrev i32C : Codec I32 := signedC 4
abbrev i64C : Codec I64 := signedC 8
abbrev isizeC : Codec Isize := signedC 8

/-! ## Types from `tests/round_trip.rs` -/

/-- `Bar` from `test_basic_struct`: a struct with three `u32` fields and an
`Option<u32>` field. -/
structure Bar where
  a : U32
  b : U32
  c : U32
  d : Option U32
deriving DecidableEq

/-- Field-by-field codec for `Bar`, fields in declaration order. -/
def BarC : Codec Bar :=
  Codec.rmap (fun p => ⟨p.1, p.2.1, p.2.2.1, p.2.2.2⟩)
    (fun s => (s.a, s.b, s.c, s.d))
    (prodC u32C (prodC u32C (prodC u32C (optionC u32C))))

theorem BarC_roundTrips : BarC.RoundTrips :=
  rmap_roundTrips
    (prodC_roundTrips (primC_roundTrips 4)
      (prodC_roundTrips (primC_roundTrips 4)
        (prodC_roundTrips (primC_roundTrips 4)
          (optionC_roundTrips (primC_roundTrips 4)))))
    (fun _ => rfl)

theorem BarC_bounded : BarC.Bounded :=
  rmap_bounded
    (prodC_bounded (primC_bounded 4)
      (prodC_bounded (primC_bounded 4)
        (prodC_bounded (primC_bounded 4)
          (optionC_bounded (primC_bounded 4)))))

/-- `TestEnum` from `test_enum`: a data-carrying enum with field-less,
positional-field and named-field variants. -/
inductive TestEnum where
  | NoArg
  | OneArg (x : Usize)
  | Args (x : Usize) (y : Usize)
  | AnotherNoArg
  | StructLike (x : Usize) (y : F32)
deriving DecidableEq

/-- Encode `TestEnum`: one discriminant byte (the variant's 0-based
positional index) followed by the variant's fields in declaration order. -/
def TestEnum.poke : TestEnum → List Byte
  | .NoArg => [(⟨0, by omega⟩ : Byte)]
  | .OneArg x => (⟨1, by omega⟩ : Byte) :: usizeC.poke_into x
  | .Args x y => (⟨2, by omega⟩ : Byte) :: (usizeC.poke_into x ++ usizeC.poke_into y)
  | .AnotherNoArg => [(⟨3, by omega⟩ : Byte)]
  | .StructLike x y => (⟨4, by omega⟩ : Byte) :: (usizeC.poke_into x ++ f32C.poke_into y)

/-- Decode `TestEnum`: read the discriminant byte, select the variant with
that positional index, read its fields; an index matching no variant is
`InvalidDiscriminant`. -/
def TestEnum.peek (l : List Byte) : Except PeekError (TestEnum × List Byte) :=
  match l with
  | [] => .error .unexpectedEnd
  | t :: r =>
    match t.val with
    | 0 => .ok (.NoArg, r)
    | 1 =>
      match usizeC.peek_from r with
      | .error e => .error e
      | .ok (x, r2) => .ok (.OneArg x, r2)
    | 2 =>
      match usizeC.peek_from r with
      | .error e => .error e
      | .ok (x, r2) =>
        match usizeC.peek_from r2 with
        | .error e => .error e
        | .ok (y, r3) => .ok (.Args x y, r3)
    | 3 => .ok (.AnotherNoArg, r)
    | 4 =>
      match usizeC.peek_from r with
      | .error e => .error e
      | .ok (x, r2) =>
        match f32C.peek_from r2 with
        | .error e => .error e
        | .ok (y, r3) => .ok (.StructLike x y, r3)
    | _ + 5 => .error .invalidDiscriminant

/-- Codec for `TestEnum`; the static maximum is the discriminant plus the
largest variant payload (`Args`: two 8-byte fields). -/
def TestEnumC : Codec TestEnum :=
  { max_size := 1 + (8 + 8)
    poke_into := TestEnum.poke
    peek_from := TestEnum.peek }

theorem TestEnumC_roundTrips : TestEnumC.RoundTrips := by
  intro e rest
  cases e with
  | NoArg => rfl
  | AnotherNoArg => rfl
  | OneArg x =>
    show (match usizeC.peek_from (usizeC.poke_into x ++ rest) with
      | Except.error e => (Except.error e : Except PeekError (TestEnum × List Byte))
      | Except.ok (x, r2) => Except.ok (TestEnum.OneArg x, r2))
      = Except.ok (TestEnum.OneArg x, rest)
    rw [primC_roundTrips 8 x rest]
  | Args x y =>
    show (match usizeC.peek_from ((usizeC.poke_into x ++ usizeC.poke_into y) ++ rest) with
      | Except.error e => (Except.error e : Except PeekError (TestEnum × List Byte))
      | Except.ok (x, r2) =>
        match usizeC.peek_from r2 with
        | Except.error e => Except.error e
        | Except.ok (y, r3) => Except.ok (TestEnum.Args x y, r3))
      = Except.ok (TestEnum.Args x y, rest)
    rw [List.append_assoc, primC_roundTrips 8 x (usizeC.poke_into y ++ rest)]
    show (match usizeC.peek_from (usizeC.poke_into y ++ rest) with
      | Except.error e => (Except.error e : Except PeekError (TestEnum × List Byte))
      | Except.ok (y, r3) => Except.ok (TestEnum.Args x y, r3))
      = Except.ok (TestEnum.Args x y, rest)
    rw [primC_roundTrips 8 y rest]
  | StructLike x y =>
    show (match usizeC.peek_from ((usizeC.poke_into x ++ f32C.poke_into y) ++ rest) with
      | Except.error e => (Except.error e : Except PeekError (TestEnum × List Byte))
      | Except.ok (x, r2) =>
        match f32C.peek_from r2 with
        | Except.error e => Except.error e
        | Except.ok (y, r3) => Except.ok (TestEnum.StructLike x y, r3))
      = Except.ok (TestEnum.StructLike x y, rest)
    rw [List.append_assoc, primC_roundTrips 8 x (f32C.poke_into y ++ rest)]
    show (match f32C.peek_from (f32C.poke_into y ++ rest) with
      | Except.error e => (Except.error e : Except PeekError (TestEnum × List Byte))
      | Except.ok (y, r3) => Except.ok (TestEnum.StructLike x y, r3))
      = Except.ok (TestEnum.StructLike x y, rest)
    rw [primC_roundTrips 4 y rest]

theorem TestEnumC_bounded : TestEnumC.Bounded := by
  intro e
  cases e <;> simp [TestEnumC, TestEnum.poke, primC, pokeNat_length]

/-- `BorderStyle` from `test_enum_cstyle`: a ten-variant field-less
(C-style) enum with explicit discriminant values 0 through 9. -/
inductive BorderStyle where
  | None
  | Solid
  | Double
  | Dotted
  | Dashed
  | Hidden
  | Groove
  | Ridge
  | Inset
  | Outset
deriving DecidableEq

/-- The declared discriminant values: `None = 0`, `Solid = 1`, ...,
`Outset = 9`. -/
def BorderStyle.discriminant : BorderStyle → Nat
  | .None => 0
  | .Solid => 1
  | .Double => 2
  | .Dotted => 3
  | .Dashed => 4
  | .Hidden => 5
  | .Groove => 6
  | .Ridge => 7
  | .Inset => 8
  | .Outset => 9

/-- Encode `BorderStyle`: the single discriminant byte carrying the
variant's declared value. -/
def BorderStyle.poke (s : BorderStyle) : List Byte :=
  [(⟨s.discriminant, by cases s <;> decide⟩ : Byte)]

/-- Decode `BorderStyle`: select the variant whose declared discriminant
value matches the byte read; a value matching no variant is
`InvalidDiscriminant`. -/
def BorderStyle.peek (l : List Byte) : Except PeekError (BorderStyle × List Byte) :=
  match l with
  | [] => .error .unexpectedEnd
  | t :: r =>
    match t.val with
    | 0 => .ok (.None, r)
    | 1 => .ok (.Solid, r)
    | 2 => .ok (.Double, r)
    | 3 => .ok (.Dotted, r)
    | 4 => .ok (.Dashed, r)
    | 5 => .ok (.Hidden, r)
    | 6 => .ok (.Groove, r)
    | 7 => .ok (.Ridge, r)
    | 8 => .ok (.Inset, r)
    | 9 => .ok (.Outset, r)
    | _ + 10 => .error .invalidDiscriminant

/-- Codec for `BorderStyle`: one discriminant byte, no payload. -/
def BorderStyleC : Codec BorderStyle :=
  { max_size := 1
    poke_into := BorderStyle.poke
    peek_from := BorderStyle.peek }

theorem BorderStyleC_roundTrips : BorderStyleC.RoundTrips := by
  intro s rest
  cases s <;> rfl

theorem BorderStyleC_bounded : BorderStyleC.Bounded := by
  intro s
  cases s <;> exact Nat.le_refl 1

/-- `Foo` from `test_phantom_data`: two `u32` fields and a zero-sized
`PhantomData` marker field, modelled by `Unit`. -/
structure FooMarker where
  x : U32
  y : U32
  marker : Unit
deriving DecidableEq

def FooMarkerC : Codec FooMarker :=
  Codec.rmap (fun p => ⟨p.1, p.2.1, p.2.2⟩) (fun s => (s.x, s.y, s.marker))
    (prodC u32C (prodC u32C unitC))

theorem FooMarkerC_roundTrips : FooMarkerC.RoundTrips :=
  rmap_roundTrips
    (prodC_roundTrips (primC_roundTrips 4)
      (prodC_roundTrips (primC_roundTrips 4) unitC_roundTrips))
    (fun _ => rfl)

theorem FooMarkerC_bounded : FooMarkerC.Bounded :=
  rmap_bounded
    (prodC_bounded (primC_bounded 4) (prodC_bounded (primC_bounded 4) unitC_bounded))

/-- `Foo<T>` from `test_generic`: a struct with a generic type parameter
used by two fields; any codec for `T` induces the struct's codec. -/
structure FooG (T : Type) where
  x : T
  y : T

def FooGC (c : Codec T) : Codec (FooG T) :=
  Codec.rmap (fun p => ⟨p.1, p.2⟩) (fun s => (s.x, s.y)) (prodC c c)

theorem FooGC_roundTrips {c : Codec T} (h : c.RoundTrips) : (FooGC c).RoundTrips :=
  rmap_roundTrips (prodC_roundTrips h h) (fun _ => rfl)

theorem FooGC_bounded {c : Codec T} (h : c.Bounded) : (FooGC c).Bounded :=
  rmap_bounded (prodC_bounded h h)

/-! ## Types from `benches/versus_bincode.rs` -/

/-- `Point { x: f32, y: f32 }`. -/
structure Point where
  x : F32
  y : F32
deriving DecidableEq

def PointC : Codec Point :=
  Codec.rmap (fun p => ⟨p.1, p.2⟩) (fun s => (s.x, s.y)) (prodC f32C f32C)

theorem PointC_roundTrips : PointC.RoundTrips :=
  rmap_roundTrips (prodC_roundTrips (primC_roundTrips 4) (primC_roundTrips 4)) (fun _ => rfl)

theorem PointC_bounded : PointC.Bounded :=
  rmap_bounded (prodC_bounded (primC_bounded 4) (primC_bounded 4))

/-- `Size { w: f32, h: f32 }`. -/
structure Size where
  w : F32
  h : F32
deriving DecidableEq

def SizeC : Codec Size :=
  Codec.rmap (fun p => ⟨p.1, p.2⟩) (fun s => (s.w, s.h)) (prodC f32C f32C)

theorem SizeC_roundTrips : SizeC.RoundTrips :=
  rmap_roundTrips (prodC_roundTrips (primC_roundTrips 4) (primC_roundTrips 4)) (fun _ => rfl)

theorem SizeC_bounded : SizeC.Bounded :=
  rmap_bounded (prodC_bounded (primC_bounded 4) (primC_bounded 4))

/-- `Rect { point: Point, size: Size }`. -/
structure Rect where
  point : Point
  size : Size
deriving DecidableEq

def RectC : Codec Rect :=
  Codec.rmap (fun p => ⟨p.1, p.2⟩) (fun s => (s.point, s.size)) (prodC PointC SizeC)

theorem RectC_roundTrips : RectC.RoundTrips :=
  rmap_roundTrips (prodC_roundTrips PointC_roundTrips SizeC_roundTrips) (fun _ => rfl)

theorem RectC_bounded : RectC.Bounded :=
  rmap_bounded (prodC_bounded PointC_bounded SizeC_bounded)

/-- `PipelineId(u32, u32)`, a tuple struct; fields in declaration order. -/
structure PipelineId where
  a : U32
  b : U32
deriving DecidableEq

def PipelineIdC : Codec PipelineId :=
  Codec.rmap (fun p => ⟨p.1, p.2⟩) (fun s => (s.a, s.b)) (prodC u32C u32C)

theorem PipelineIdC_roundTrips : PipelineIdC.RoundTrips :=
  rmap_roundTrips (prodC_roundTrips (primC_roundTrips 4) (primC_roundTrips 4)) (fun _ => rfl)

theorem PipelineIdC_bounded : PipelineIdC.Bounded :=
  rmap_bounded (prodC_bounded (primC_bounded 4) (primC_bounded 4))

/-- `ClipChainId(u64, PipelineId)`, a tuple struct. -/
structure ClipChainId where
  a : U64
  b : PipelineId
deriving DecidableEq

def ClipChainIdC : Codec ClipChainId :=
  Codec.rmap (fun p => ⟨p.1, p.2⟩) (fun s => (s.a, s.b)) (prodC u64C PipelineIdC)

theorem ClipChainIdC_roundTrips : ClipChainIdC.RoundTrips :=
  rmap_roundTrips (prodC_roundTrips (primC_roundTrips 8) PipelineIdC_roundTrips) (fun _ => rfl)

theorem ClipChainIdC_bounded : ClipChainIdC.Bounded :=
  rmap_bounded (prodC_bounded (primC_bounded 8) PipelineIdC_bounded)

/-- `SpatialId(usize, PipelineId)`, a tuple struct. -/
structure SpatialId where
  a : Usize
  b : PipelineId
deriving DecidableEq

def SpatialIdC : Codec SpatialId :=
  Codec.rmap (fun p => ⟨p.1, p.2⟩) (fun s => (s.a, s.b)) (prodC usizeC PipelineIdC)

theorem SpatialIdC_roundTrips : SpatialIdC.RoundTrips :=
  rmap_roundTrips (prodC_roundTrips (primC_roundTrips 8) PipelineIdC_roundTrips) (fun _ => rfl)

theorem SpatialIdC_bounded : SpatialIdC.Bounded :=
  rmap_bounded (prodC_bounded (primC_bounded 8) PipelineIdC_bounded)

/-- `ItemTag(u64, u16)`, a tuple struct. -/
structure ItemTag where
  a : U64
  b : U16
deriving DecidableEq

def ItemTagC : Codec ItemTag :=
  Codec.rmap (fun p => ⟨p.1, p.2⟩) (fun s => (s.a, s.b)) (prodC u64C u16C)

theorem ItemTagC_roundTrips : ItemTagC.RoundTrips :=
  rmap_roundTrips (prodC_roundTrips (primC_roundTrips 8) (primC_roundTrips 2)) (fun _ => rfl)

theorem ItemTagC_bounded : ItemTagC.Bounded :=
  rmap_bounded (prodC_bounded (primC_bounded 8) (primC_bounded 2))

/-- `ClipId`, a data-carrying enum with two variants:
`Clip(usize, PipelineId)` and `ClipChain(ClipChainId)`. -/
inductive ClipId where
  | Clip (a : Usize) (b : PipelineId)
  | ClipChain (a : ClipChainId)
deriving DecidableEq

/-- Encode `ClipId`: one discriminant byte (the variant's 0-based
positional index) followed by the variant's fields in declaration order.
The one-byte width is the one the benchmark's literal fixture exhibits. -/
def ClipId.poke : ClipId → List Byte
  | .Clip a b => (⟨0, by omega⟩ : Byte) :: (usizeC.poke_into a ++ PipelineIdC.poke_into b)
  | .ClipChain a => (⟨1, by omega⟩ : Byte) :: ClipChainIdC.poke_into a

/-- Decode `ClipId`: read the discriminant byte, select the matching
variant; any other discriminant is `InvalidDiscriminant`. -/
def ClipId.peek (l : List Byte) : Except PeekError (ClipId × List Byte) :=
  match l with
  | [] => .error .unexpectedEnd
  | t :: r =>
    match t.val with
    | 0 =>
      match usizeC.peek_from r with
      | .error e => .error e
      | .ok (a, r2) =>
        match PipelineIdC.peek_from r2 with
        | .error e => .error e
        | .ok (b, r3) => .ok (.Clip a b, r3)
    | 1 =>
      match ClipChainIdC.peek_from r with
      | .error e => .error e
      | .ok (a, r2) => .ok (.ClipChain a, r2)
    | _ + 2 => .error .invalidDiscriminant

/-- Codec for `ClipId`; both variant payloads are 16 bytes wide. -/
def ClipIdC : Codec ClipId :=
  { max_size := 1 + (8 + (4 + 4))
    poke_into := ClipId.poke
    peek_from := ClipId.peek }

theorem ClipIdC_roundTrips : ClipIdC.RoundTrips := by
  intro c rest
  cases c with
  | Clip a b =>
    show (match usizeC.peek_from ((usizeC.poke_into a ++ PipelineIdC.poke_into b) ++ rest) with
      | Except.error e => (Except.error e : Except PeekError (ClipId × List Byte))
      | Except.ok (a, r2) =>
        match PipelineIdC.peek_from r2 with
        | Except.error e => Except.error e
        | Except.ok (b, r3) => Except.ok (ClipId.Clip a b, r3))
      = Except.ok (ClipId.Clip a b, rest)
    rw [List.append_assoc, primC_roundTrips 8 a (PipelineIdC.poke_into b ++ rest)]
    show (match PipelineIdC.peek_from (PipelineIdC.poke_into b ++ rest) with
      | Except.error e => (Except.error e : Except PeekError (ClipId × List Byte))
      | Except.ok (b, r3) => Except.ok (ClipId.Clip a b, r3))
      = Except.ok (ClipId.Clip a b, rest)
    rw [PipelineIdC_roundTrips b rest]
  | ClipChain a =>
    show (match ClipChainIdC.peek_from (ClipChainIdC.poke_into a ++ rest) with
      | Except.error e => (Except.error e : Except PeekError (ClipId × List Byte))
      | Except.ok (a, r2) => Except.ok (ClipId.ClipChain a, r2))
      = Except.ok (ClipId.ClipChain a, rest)
    rw [ClipChainIdC_roundTrips a rest]

theorem ClipIdC_bounded : ClipIdC.Bounded := by
  intro c
  cases c <;>
    simp [ClipIdC, ClipId.poke, primC, PipelineIdC, ClipChainIdC, Codec.rmap, prodC,
      pokeNat_length]

/-- Follows the spec's words (section 6, "Enum: 4-byte little-endian
discriminant followed by the selected variant's field bytes") rather than
the in-tree fixture; kept to compare the two layouts. -/
def ClipId.poke_specdisc : ClipId → List Byte
  | .Clip a b => pokeNat 4 0 ++ (usizeC.poke_into a ++ PipelineIdC.poke_into b)
  | .ClipChain a => pokeNat 4 1 ++ ClipChainIdC.poke_into a

/-- Follows the spec's words: decode `ClipId` by reading a 4-byte
little-endian discriminant and selecting the variant of that index. -/
def ClipId.peek_specdisc (l : List Byte) : Except PeekError (ClipId × List Byte) :=
  match peekNat 4 l with
  | .error e => .error e
  | .ok (d, r) =>
    match d with
    | 0 =>
      match usizeC.peek_from r with
      | .error e => .error e
      | .ok (a, r2) =>
        match PipelineIdC.peek_from r2 with
        | .error e => .error e
        | .ok (b, r3) => .ok (.Clip a b, r3)
    | 1 =>
      match ClipChainIdC.peek_from r with
      | .error e => .error e
      | .ok (a, r2) => .ok (.ClipChain a, r2)
    | _ + 2 => .error .invalidDiscriminant

/-- `CommonItemProperties`, the benchmark's record: a clip rectangle, a
spatial identifier, a clip identifier, an optional hit-test tag, and a
visibility flag, in that declaration order. -/
structure CommonItemProperties where
  clip_rect : Rect
  spatial_id : SpatialId
  clip_id : ClipId
  hit_info : Option ItemTag
  is_backface_visible : Bool
deriving DecidableEq

def CommonItemPropertiesC : Codec CommonItemProperties :=
  Codec.rmap
    (fun p => ⟨p.1, p.2.1, p.2.2.1, p.2.2.2.1, p.2.2.2.2⟩)
    (fun s => (s.clip_rect, s.spatial_id, s.clip_id, s.hit_info, s.is_backface_visible))
    (prodC RectC (prodC SpatialIdC (prodC ClipIdC (prodC (optionC ItemTagC) boolC))))

theorem CommonItemPropertiesC_roundTrips : CommonItemPropertiesC.RoundTrips :=
  rmap_roundTrips
    (prodC_roundTrips RectC_roundTrips
      (prodC_roundTrips SpatialIdC_roundTrips
        (prodC_roundTrips ClipIdC_roundTrips
          (prodC_roundTrips (optionC_roundTrips ItemTagC_roundTrips) boolC_roundTrips))))
    (fun _ => rfl)

theorem CommonItemPropertiesC_bounded : CommonItemPropertiesC.Bounded :=
  rmap_bounded
    (prodC_bounded RectC_bounded
      (prodC_bounded SpatialIdC_bounded
        (prodC_bounded ClipIdC_bounded
          (prodC_bounded (optionC_bounded ItemTagC_bounded) boolC_bounded))))

/-! ## Tuple codecs from `test_tuple` -/

/-- Codec for the three-element tuple `(isize, isize, isize)`: the three
8-byte encodings concatenated, no padding and no length prefix. -/
def tuple3C : Codec (Isize × Isize × Isize) := prodC isizeC (prodC isizeC isizeC)

theorem tuple3C_roundTrips : tuple3C.RoundTrips :=
  prodC_roundTrips (signedC_roundTrips 8 (by norm_num))
    (prodC_roundTrips (signedC_roundTrips 8 (by norm_num)) (signedC_roundTrips 8 (by norm_num)))

theorem tuple3C_bounded : tuple3C.Bounded :=
  prodC_bounded (signedC_bounded 8) (prodC_bounded (signedC_bounded 8) (signedC_bounded 8))

/-- Codec for the tuple `(isize, ())` with a unit component. -/
def tupleUnitC : Codec (Isize × Unit) := prodC isizeC unitC

theorem tupleUnitC_roundTrips : tupleUnitC.RoundTrips :=
  prodC_roundTrips (signedC_roundTrips 8 (by norm_num)) unitC_roundTrips

theorem tupleUnitC_bounded : tupleUnitC.Bounded :=
  prodC_bounded (signedC_bounded 8) unitC_bounded

/-! ## The benchmark's literal decode fixture -/

/-- The byte literal from the `peek_poke::peek_from` deserialize benchmark
in `benches/versus_bincode.rs` (51 numerals, transcribed in order). -/
def fixture_bytes : List Byte :=
  bytesOfNats
    [0, 0, 128, 63, 0, 0, 0, 64, 0, 0, 128, 64, 0, 0, 160, 64, 3, 0, 0, 0, 0, 0, 0, 0,
     4, 0, 0, 0, 5, 0, 0, 0, 0, 5, 0, 0, 0, 0, 0, 0, 0, 1, 0, 0, 0, 2, 0, 0, 0, 0, 1]

/-- The record the benchmark encodes (and which the fixture decodes to):
`clip_rect` with point `(1.0, 2.0)` and size `(4.0, 5.0)` — the `F32`
fields hold the IEEE-754 bit patterns `0x3F800000 = 1.0`,
`0x40000000 = 2.0`, `0x40800000 = 4.0`, `0x40A00000 = 5.0` —
`spatial_id = SpatialId(3, PipelineId(4, 5))`,
`clip_id = ClipId::Clip(5, PipelineId(1, 2))`, `hit_info = None`,
`is_backface_visible = true`. -/
def fixture_value : CommonItemProperties :=
  { clip_rect :=
      { point := { x := (⟨0x3F800000, by norm_num⟩ : F32), y := (⟨0x40000000, by norm_num⟩ : F32) }
        size := { w := (⟨0x40800000, by norm_num⟩ : F32), h := (⟨0x40A00000, by norm_num⟩ : F32) } }
    spatial_id := { a := (⟨3, by norm_num⟩ : Usize), b := { a := (⟨4, by norm_num⟩ : U32), b := (⟨5, by norm_num⟩ : U32) } }
    clip_id := ClipId.Clip (⟨5, by norm_num⟩ : Usize) { a := (⟨1, by norm_num⟩ : U32), b := (⟨2, by norm_num⟩ : U32) }
    hit_info := none
    is_backface_visible := true }

/-! ## The fast sequential reader from `benches/versus_bincode.rs` -/

/-- An `io::Error` value as appearing in the reader's `read`/`read_exact`
result type; mirroring the source, the model never constructs one. -/
inductive IoError where
  | other (code : Nat)
deriving DecidableEq

/-- The outcome of running code that may hit a failed `assert!` (a fatal
panic) instead of returning a value. -/
inductive Fallible (α : Type) where
  | assertionFailed
  | returns (a : α)
deriving DecidableEq

/-- `UnsafeReader` from `benches/versus_bincode.rs`: a cursor over a byte
slice.  `new` sets `start` to the slice's base pointer and `end` one past
its last byte; here the slice is `data`, the cursor `start` is the offset
`pos` from the base, and `end` is `data.length`. -/
structure UnsafeReader where
  data : List Byte
  pos : Nat
deriving DecidableEq

namespace UnsafeReader

/-- `UnsafeReader::new`. -/
def new (buf : List Byte) : UnsafeReader :=
  { data := buf, pos := 0 }

/-- `UnsafeReader::read_internal`: asserts `start + buf.len() <= end`
(panicking otherwise), then copies exactly `len` bytes from the cursor
into the destination buffer and advances the cursor by `len`.  The
returned list is the destination buffer's contents after the copy. -/
def read_internal (r : UnsafeReader) (len : Nat) : Fallible (List Byte × UnsafeReader) :=
  if r.pos + len ≤ r.data.length then
    .returns ((r.data.drop r.pos).take len, { r with pos := r.pos + len })
  else .assertionFailed

/-- `io::Read::read` for `UnsafeReader`: runs `read_internal` and, when it
returns, always yields `Ok(buf.len())`. -/
def read (r : UnsafeReader) (len : Nat) :
    Fallible (Except IoError (Nat × List Byte × UnsafeReader)) :=
  match read_internal r len with
  | .assertionFailed => .assertionFailed
  | .returns (bs, r2) => .returns (.ok (len, bs, r2))

/-- `io::Read::read_exact` for `UnsafeReader`: runs `read_internal` and,
when it returns, always yields `Ok(())` with the filled buffer. -/
def read_exact (r : UnsafeReader) (len : Nat) :
    Fallible (Except IoError (List Byte × UnsafeReader)) :=
  match read_internal r len with
  | .assertionFailed => .assertionFailed
  | .returns (bs, r2) => .returns (.ok (bs, r2))

end UnsafeReader

/-! ## The claims -/

/-- C1: for every supported type and every value `v` of that type, decoding
the bytes produced by encoding `v` yields a value equal to `v` (with any
trailing bytes untouched), covering all the shapes exercised by the tests:
fixed-width integers of all signs and widths, `f32`/`f64` bit patterns,
`bool`, `Option`, tuples (including a unit component), a struct with an
`Option` field, a generic struct instantiated at `f64`, the data-carrying
enums `TestEnum` and `ClipId`, the C-style enum `BorderStyle`, a struct
with a zero-sized marker field, and the benchmark's full record. -/
theorem C1_round_trip :
    Codec.RoundTrips u8C ∧ Codec.RoundTrips u16C ∧ Codec.RoundTrips u32C ∧
    Codec.RoundTrips u64C ∧ Codec.RoundTrips usizeC ∧
    Codec.RoundTrips i8C ∧ Codec.RoundTrips i16C ∧ Codec.RoundTrips i32C ∧
    Codec.RoundTrips i64C ∧ Codec.RoundTrips isizeC ∧
    Codec.RoundTrips f32C ∧ Codec.RoundTrips f64C ∧
    Codec.RoundTrips boolC ∧ Codec.RoundTrips (optionC usizeC) ∧
    Codec.RoundTrips tuple3C ∧ Codec.RoundTrips tupleUnitC ∧
    Codec.RoundTrips BarC ∧ Codec.RoundTrips (FooGC f64C) ∧
    Codec.RoundTrips TestEnumC ∧ Codec.RoundTrips ClipIdC ∧
    Codec.RoundTrips BorderStyleC ∧ Codec.RoundTrips FooMarkerC ∧
    Codec.RoundTrips CommonItemPropertiesC :=
  ⟨primC_roundTrips 1, primC_roundTrips 2, primC_roundTrips 4,
   primC_roundTrips 8, primC_roundTrips 8,
   signedC_roundTrips 1 (by norm_num), signedC_roundTrips 2 (by norm_num),
   signedC_roundTrips 4 (by norm_num), signedC_roundTrips 8 (by norm_num),
   signedC_roundTrips 8 (by norm_num),
   primC_roundTrips 4, primC_roundTrips 8,
   boolC_roundTrips, optionC_roundTrips (primC_roundTrips 8),
   tuple3C_roundTrips, tupleUnitC_roundTrips,
   BarC_roundTrips, FooGC_roundTrips (primC_roundTrips 8),
   TestEnumC_roundTrips, ClipIdC_roundTrips,
   BorderStyleC_roundTrips, FooMarkerC_roundTrips,
   CommonItemPropertiesC_roundTrips⟩

/-- C2: for every supported type and every value, decoding the exact
encoding succeeds with an empty remainder, so the bytes consumed by the
read operation equal the bytes produced by the write operation (not the
static maximum). -/
theorem C2_symmetric_consumption :
    Codec.ConsumesAll u8C ∧ Codec.ConsumesAll u16C ∧ Codec.ConsumesAll u32C ∧
    Codec.ConsumesAll u64C ∧ Codec.ConsumesAll usizeC ∧
    Codec.ConsumesAll i8C ∧ Codec.ConsumesAll i16C ∧ Codec.ConsumesAll i32C ∧
    Codec.ConsumesAll i64C ∧ Codec.ConsumesAll isizeC ∧
    Codec.ConsumesAll f32C ∧ Codec.ConsumesAll f64C ∧
    Codec.ConsumesAll boolC ∧ Codec.ConsumesAll (optionC usizeC) ∧
    Codec.ConsumesAll tuple3C ∧ Codec.ConsumesAll tupleUnitC ∧
    Codec.ConsumesAll BarC ∧ Codec.ConsumesAll (FooGC f64C) ∧
    Codec.ConsumesAll TestEnumC ∧ Codec.ConsumesAll ClipIdC ∧
    Codec.ConsumesAll BorderStyleC ∧ Codec.ConsumesAll FooMarkerC ∧
    Codec.ConsumesAll CommonItemPropertiesC :=
  ⟨(primC_roundTrips 1).consumesAll, (primC_roundTrips 2).consumesAll,
   (primC_roundTrips 4).consumesAll, (primC_roundTrips 8).consumesAll,
   (primC_roundTrips 8).consumesAll,
   (signedC_roundTrips 1 (by norm_num)).consumesAll,
   (signedC_roundTrips 2 (by norm_num)).consumesAll,
   (signedC_roundTrips 4 (by norm_num)).consumesAll,
   (signedC_roundTrips 8 (by norm_num)).consumesAll,
   (signedC_roundTrips 8 (by norm_num)).consumesAll,
   (primC_roundTrips 4).consumesAll, (primC_roundTrips 8).consumesAll,
   boolC_roundTrips.consumesAll,
   (optionC_roundTrips (primC_roundTrips 8)).consumesAll,
   tuple3C_roundTrips.consumesAll, tupleUnitC_roundTrips.consumesAll,
   BarC_roundTrips.consumesAll,
   (FooGC_roundTrips (primC_roundTrips 8)).consumesAll,
   TestEnumC_roundTrips.consumesAll, ClipIdC_roundTrips.consumesAll,
   BorderStyleC_roundTrips.consumesAll, FooMarkerC_roundTrips.consumesAll,
   CommonItemPropertiesC_roundTrips.consumesAll⟩

/-- C3: for every supported type and every value, the bytes actually
written by the encoder never exceed the type's `max_size`, which is a
constant of the codec (computed from the type's shape alone, with no value
instance). -/
theorem C3_bound_respected :
    Codec.Bounded u8C ∧ Codec.Bounded u16C ∧ Codec.Bounded u32C ∧
    Codec.Bounded u64C ∧ Codec.Bounded usizeC ∧
    Codec.Bounded i8C ∧ Codec.Bounded i16C ∧ Codec.Bounded i32C ∧
    Codec.Bounded i64C ∧ Codec.Bounded isizeC ∧
    Codec.Bounded f32C ∧ Codec.Bounded f64C ∧
    Codec.Bounded boolC ∧ Codec.Bounded (optionC usizeC) ∧
    Codec.Bounded tuple3C ∧ Codec.Bounded tupleUnitC ∧
    Codec.Bounded BarC ∧ Codec.Bounded (FooGC f64C) ∧
    Codec.Bounded TestEnumC ∧ Codec.Bounded ClipIdC ∧
    Codec.Bounded BorderStyleC ∧ Codec.Bounded FooMarkerC ∧
    Codec.Bounded CommonItemPropertiesC :=
  ⟨primC_bounded 1, primC_bounded 2, primC_bounded 4, primC_bounded 8,
   primC_bounded 8,
   signedC_bounded 1, signedC_bounded 2, signedC_bounded 4, signedC_bounded 8,
   signedC_bounded 8,
   primC_bounded 4, primC_bounded 8,
   boolC_bounded, optionC_bounded (primC_bounded 8),
   tuple3C_bounded, tupleUnitC_bounded,
   BarC_bounded, FooGC_bounded (primC_bounded 8),
   TestEnumC_bounded, ClipIdC_bounded,
   BorderStyleC_bounded, FooMarkerC_bounded,
   CommonItemPropertiesC_bounded⟩

/-- C4: encoding `None::<u32>` yields exactly the single byte `0`;
encoding `Some(5u32)` yields exactly five bytes: the tag byte `1`
followed by the 4-byte little-endian representation of `5`. -/
theorem C4_option_discriminant :
    (optionC u32C).poke_into none = bytesOfNats [0] ∧
    ((optionC u32C).poke_into none).length = 1 ∧
    (optionC u32C).poke_into (some (⟨5, by norm_num⟩ : U32)) = bytesOfNats [1, 5, 0, 0, 0] ∧
    ((optionC u32C).poke_into (some (⟨5, by norm_num⟩ : U32))).length = 5 :=
  ⟨rfl, rfl, rfl, rfl⟩

/-- C5 (counterexample): the benchmark's literal fixture is not 47 bytes
long (it has 51 entries), so the claim's description of the input is false
at the concrete fixture. -/
theorem C5_counterexample : ¬ fixture_bytes.length = 47 := by decide

/-- C5 (as amended): decoding the benchmark's canonical fixture — a
51-byte literal, not 47 — as a `CommonItemProperties` consumes it fully
and yields exactly the claimed record: `clip_rect` with point
`(1.0, 2.0)` and size `(4.0, 5.0)`, `spatial_id = SpatialId(3,
PipelineId(4, 5))`, `clip_id = ClipId::Clip(5, PipelineId(1, 2))`,
`hit_info = None` and `is_backface_visible = true`. -/
theorem C5_fixture_decodes :
    CommonItemPropertiesC.peek_from fixture_bytes = .ok (fixture_value, []) ∧
    fixture_bytes.length = 51 :=
  ⟨rfl, rfl⟩

/-- C6 (counterexample): the `ClipId` region of the canonical fixture
(bytes 32 onward) is not laid out with a 4-byte little-endian
discriminant: reading it per the spec's wording yields
`InvalidDiscriminant` (the four bytes there decode to 1280, matching
neither variant of the two-variant enum), and the region differs from the
4-byte-discriminant encoding of the `clip_id` value the fixture carries. -/
theorem C6_counterexample :
    ClipId.peek_specdisc (List.drop 32 fixture_bytes) = .error .invalidDiscriminant ∧
    ¬ List.take 17 (List.drop 32 fixture_bytes) =
        List.take 17 (ClipId.poke_specdisc
          (ClipId.Clip (⟨5, by norm_num⟩ : Usize)
            { a := (⟨1, by norm_num⟩ : U32), b := (⟨2, by norm_num⟩ : U32) })) :=
  ⟨rfl, by decide⟩

/-- C6 (as amended): encoding a value of a data-carrying enum writes a
one-byte discriminant — the variant's 0-based positional index — followed
by the chosen variant's field encodings in declaration order, a field-less
variant writing only the discriminant; and the `ClipId` field inside the
canonical fixture is laid out exactly this way. -/
theorem C6_enum_layout :
    (∀ a b, ClipId.poke (.Clip a b) =
      (⟨0, by omega⟩ : Byte) :: (usizeC.poke_into a ++ PipelineIdC.poke_into b)) ∧
    (∀ a, ClipId.poke (.ClipChain a) =
      (⟨1, by omega⟩ : Byte) :: ClipChainIdC.poke_into a) ∧
    TestEnum.poke .NoArg = [(⟨0, by omega⟩ : Byte)] ∧
    (∀ x, TestEnum.poke (.OneArg x) = (⟨1, by omega⟩ : Byte) :: usizeC.poke_into x) ∧
    (∀ x y, TestEnum.poke (.Args x y) =
      (⟨2, by omega⟩ : Byte) :: (usizeC.poke_into x ++ usizeC.poke_into y)) ∧
    TestEnum.poke .AnotherNoArg = [(⟨3, by omega⟩ : Byte)] ∧
    (∀ x y, TestEnum.poke (.StructLike x y) =
      (⟨4, by omega⟩ : Byte) :: (usizeC.poke_into x ++ f32C.poke_into y)) ∧
    List.take 17 (List.drop 32 fixture_bytes) =
      ClipId.poke (ClipId.Clip (⟨5, by norm_num⟩ : Usize)
        { a := (⟨1, by norm_num⟩ : U32), b := (⟨2, by norm_num⟩ : U32) }) :=
  ⟨fun _ _ => rfl, fun _ => rfl, rfl, fun _ => rfl, fun _ _ => rfl, rfl,
   fun _ _ => rfl, by decide⟩

/-- C7: for the ten-variant field-less C-style enum with declared
discriminant values 0 through 9, encoding any variant writes exactly the
one-byte tag carrying the variant's declared discriminant value, and
decoding that encoding yields the variant whose declared value matches the
tag, for every one of the ten variants. -/
theorem C7_cstyle_discriminants :
    ∀ s : BorderStyle,
      BorderStyleC.peek_from (BorderStyleC.poke_into s) = .ok (s, []) ∧
      (BorderStyleC.poke_into s).map Fin.val = [BorderStyle.discriminant s] := by
  intro s
  cases s <;> exact ⟨rfl, rfl⟩

/-- C8: decoding an enum from a source whose discriminant matches no
declared variant yields the `InvalidDiscriminant` error — for `ClipId`
(variants 0 and 1) any tag of 2 or more, for `TestEnum` (variants 0-4) any
tag of 5 or more, and for `BorderStyle` (declared values 0-9) any tag of
10 or more — rather than silently producing some variant. -/
theorem C8_invalid_discriminant :
    (∀ (t : Byte) (r : List Byte), 2 ≤ t.val →
      ClipId.peek (t :: r) = .error .invalidDiscriminant) ∧
    (∀ (t : Byte) (r : List Byte), 5 ≤ t.val →
      TestEnum.peek (t :: r) = .error .invalidDiscriminant) ∧
    (∀ (t : Byte) (r : List Byte), 10 ≤ t.val →
      BorderStyle.peek (t :: r) = .error .invalidDiscriminant) := by
  refine ⟨?_, ?_, ?_⟩
  · rintro ⟨tv, htv⟩ r h
    have h2 : 2 ≤ tv := h
    obtain ⟨k, rfl⟩ : ∃ k, tv = k + 2 := ⟨tv - 2, by omega⟩
    rfl
  · rintro ⟨tv, htv⟩ r h
    have h2 : 5 ≤ tv := h
    obtain ⟨k, rfl⟩ : ∃ k, tv = k + 5 := ⟨tv - 5, by omega⟩
    rfl
  · rintro ⟨tv, htv⟩ r h
    have h2 : 10 ≤ tv := h
    obtain ⟨k, rfl⟩ : ∃ k, tv = k + 10 := ⟨tv - 10, by omega⟩
    rfl

/-- C8 (witness): concrete unmatched discriminants — tag 7 for `ClipId`,
tag 9 for `TestEnum`, tag 77 for `BorderStyle` — are all rejected with
`InvalidDiscriminant`. -/
theorem C8_invalid_discriminant_witness :
    ClipId.peek ((⟨7, by omega⟩ : Byte) :: []) = .error .invalidDiscriminant ∧
    TestEnum.peek ((⟨9, by omega⟩ : Byte) :: []) = .error .invalidDiscriminant ∧
    BorderStyle.peek ((⟨77, by omega⟩ : Byte) :: []) = .error .invalidDiscriminant :=
  ⟨C8_invalid_discriminant.1 ⟨7, by omega⟩ [] (by decide),
   C8_invalid_discriminant.2.1 ⟨9, by omega⟩ [] (by decide),
   C8_invalid_discriminant.2.2 ⟨77, by omega⟩ [] (by decide)⟩

/-- C9: encoding the tuple `(1isize, 2isize, 3isize)` produces exactly 24
bytes — three consecutive 8-byte little-endian integers 1, 2, 3 with no
padding or length prefix — and decoding those bytes yields the identical
tuple with nothing left over. -/
theorem C9_tuple_isize :
    tuple3C.poke_into
        ((⟨1, by norm_num⟩ : Isize), (⟨2, by norm_num⟩ : Isize), (⟨3, by norm_num⟩ : Isize)) =
      bytesOfNats [1, 0, 0, 0, 0, 0, 0, 0, 2, 0, 0, 0, 0, 0, 0, 0, 3, 0, 0, 0, 0, 0, 0, 0] ∧
    (tuple3C.poke_into
        ((⟨1, by norm_num⟩ : Isize), (⟨2, by norm_num⟩ : Isize), (⟨3, by norm_num⟩ : Isize))).length = 24 ∧
    tuple3C.peek_from (tuple3C.poke_into
        ((⟨1, by norm_num⟩ : Isize), (⟨2, by norm_num⟩ : Isize), (⟨3, by norm_num⟩ : Isize))) =
      .ok (((⟨1, by norm_num⟩ : Isize), (⟨2, by norm_num⟩ : Isize), (⟨3, by norm_num⟩ : Isize)), []) :=
  ⟨rfl, rfl, rfl⟩

/-- C10: for every `UnsafeReader` and requested length, `read` and
`read_exact` never return an `io::Error` value: the assertion fails (a
fatal panic) exactly when the requested length exceeds the bytes remaining
between the cursor and the end, and otherwise exactly `len` bytes are
copied from the cursor, the cursor advances by exactly `len`, and `read`
returns `Ok(len)` (`read_exact` returns `Ok`). -/
theorem C10_unsafe_reader :
    ∀ (r : UnsafeReader) (len : Nat),
      (∀ e : IoError,
        UnsafeReader.read r len ≠ .returns (.error e) ∧
        UnsafeReader.read_exact r len ≠ .returns (.error e)) ∧
      (UnsafeReader.read_internal r len = .assertionFailed ↔
        r.data.length < r.pos + len) ∧
      (r.data.length < r.pos + len ∨
        (UnsafeReader.read_internal r len =
            .returns ((r.data.drop r.pos).take len, { data := r.data, pos := r.pos + len }) ∧
          ((r.data.drop r.pos).take len).length = len ∧
          UnsafeReader.read r len =
            .returns (.ok (len, (r.data.drop r.pos).take len,
              { data := r.data, pos := r.pos + len })) ∧
          UnsafeReader.read_exact r len =
            .returns (.ok ((r.data.drop r.pos).take len,
              { data := r.data, pos := r.pos + len })))) := by
  intro r len
  by_cases hle : r.pos + len ≤ r.data.length
  · have hint : UnsafeReader.read_internal r len =
        .returns ((r.data.drop r.pos).take len, { data := r.data, pos := r.pos + len }) := by
      unfold UnsafeReader.read_internal
      rw [if_pos hle]
    refine ⟨?_, ?_, Or.inr ⟨hint, ?_, ?_, ?_⟩⟩
    · intro e
      constructor
      · unfold UnsafeReader.read
        rw [hint]
        simp
      · unfold UnsafeReader.read_exact
        rw [hint]
        simp
    · constructor
      · intro hcontra
        rw [hint] at hcontra
        exact Fallible.noConfusion hcontra
      · intro hlt
        exact absurd hlt (by omega)
    · rw [List.length_take, List.length_drop]
      omega
    · unfold UnsafeReader.read
      rw [hint]
    · unfold UnsafeReader.read_exact
      rw [hint]
  · have hint : UnsafeReader.read_internal r len = .assertionFailed := by
      unfold UnsafeReader.read_internal
      rw [if_neg hle]
    refine ⟨?_, ⟨fun _ => by omega, fun _ => hint⟩, Or.inl (by omega)⟩
    intro e
    constructor
    · unfold UnsafeReader.read
      rw [hint]
      simp
    · unfold UnsafeReader.read_exact
      rw [hint]
      simp

/-- C10 (witness): on a three-byte buffer, requesting five bytes from the
start fails the assertion, while requesting two bytes copies exactly the
first two bytes, advances the cursor to two, and returns `Ok(2)`. -/
theorem C10_unsafe_reader_witness :
    UnsafeReader.read_internal { data := bytesOfNats [10, 20, 30], pos := 0 } 5 =
      .assertionFailed ∧
    UnsafeReader.read { data := bytesOfNats [10, 20, 30], pos := 0 } 2 =
      .returns (.ok (2, bytesOfNats [10, 20], { data := bytesOfNats [10, 20, 30], pos := 2 })) := by
  constructor
  · exact (C10_unsafe_reader { data := bytesOfNats [10, 20, 30], pos := 0 } 5).2.1.mpr (by decide)
  · rcases (C10_unsafe_reader { data := bytesOfNats [10, 20, 30], pos := 0 } 2).2.2 with h | h
    · exact absurd h (by decide)
    · exact h.2.2.1
